import Mathlib

/-!
Verification of the `controllers` package of the tat repository
(`src/controllers/presences.go`, `src/controllers/users.go`).

Go strings are modelled as lists of characters (`GoStr`); every string
constant appearing in the source is ASCII, where Go's byte indexing and
byte length coincide with character indexing and character length.
Functions from the `models`/`utils` packages (not part of the sources)
are modelled from the spec where a claim depends on them; each such
definition carries a doc comment starting with `Modelled from the spec:`.
-/

deriving instance DecidableEq for Except

/-- A Go string, as a list of characters. -/
abbrev GoStr := List Char

/-- Shorthand turning a Lean string literal into a `GoStr`. -/
def gs (s : String) : GoStr := s.data

/-- Mirror of Go `strings.Split(s, sep)` for a one-character separator
(every `strings.Split` call in the sources uses `"/"` or `","`):
the substrings between occurrences of `sep`, empty pieces kept. -/
def splitChar (sep : Char) : GoStr → List GoStr
  | [] => [[]]
  | c :: rest =>
    let ps := splitChar sep rest
    if c = sep then [] :: ps else (c :: ps.headD []) :: ps.tail

theorem splitChar_ne_nil (sep : Char) (s : GoStr) : splitChar sep s ≠ [] := by
  cases s with
  | nil => simp [splitChar]
  | cons c rest =>
    simp only [splitChar]
    split <;> simp

theorem splitChar_of_not_mem {sep : Char} {s : GoStr} (h : sep ∉ s) :
    splitChar sep s = [s] := by
  induction s with
  | nil => rfl
  | cons c rest ih =>
    have hc : c ≠ sep := fun he => h (he ▸ List.mem_cons_self c rest)
    have hr : sep ∉ rest := fun hm => h (List.mem_cons_of_mem c hm)
    simp only [splitChar, ih hr, if_neg hc, List.headD_cons, List.tail_cons]

theorem splitChar_append {sep : Char} {a : GoStr} (b : GoStr) (h : sep ∉ a) :
    splitChar sep (a ++ sep :: b) = a :: splitChar sep b := by
  induction a with
  | nil => simp [splitChar]
  | cons c a' ih =>
    have hc : c ≠ sep := fun he => h (he ▸ List.mem_cons_self c a')
    have ha' : sep ∉ a' := fun hm => h (List.mem_cons_of_mem c hm)
    have h2 : splitChar sep (a'.append (sep :: b)) = a' :: splitChar sep b := ih ha'
    simp only [List.cons_append, splitChar, h2, if_neg hc, List.headD_cons, List.tail_cons]

theorem mem_of_mem_splitChar {sep : Char} {s x : GoStr} {c : Char}
    (hx : x ∈ splitChar sep s) (hc : c ∈ x) : c ∈ s := by
  induction s generalizing x with
  | nil =>
    simp [splitChar] at hx
    subst hx
    exact absurd hc (List.not_mem_nil c)
  | cons a rest ih =>
    obtain ⟨p, ps, hps⟩ := List.exists_cons_of_ne_nil (splitChar_ne_nil sep rest)
    simp only [splitChar, hps, List.headD_cons, List.tail_cons] at hx
    by_cases ha : a = sep
    · rw [if_pos ha] at hx
      rcases List.mem_cons.mp hx with h | h
      · subst h; exact absurd hc (List.not_mem_nil c)
      · exact List.mem_cons_of_mem a (ih (hps ▸ h) hc)
    · rw [if_neg ha] at hx
      rcases List.mem_cons.mp hx with h | h
      · subst h
        rcases List.mem_cons.mp hc with h | h
        · exact h ▸ List.mem_cons_self a rest
        · exact List.mem_cons_of_mem a (ih (hps ▸ List.mem_cons_self p ps) h)
      · exact List.mem_cons_of_mem a (ih (hps ▸ List.mem_cons_of_mem p h) hc)

/-! ## Presence listing (`presences.go`)

`listWithCriteria` (lines 65-110): after the user fetch, topic lookup and
read-access check, the topic criterion is normalized and, for DM topics,
expanded with the mirror topic. -/

/-- Lines 84-86 of `presences.go`: prepend `/` when the topic is non-empty
and does not already start with `/`. -/
def normalizeTopic : GoStr → GoStr
  | [] => []
  | c :: rest => if c = '/' then c :: rest else '/' :: c :: rest

/-- Line 88: `topicDM := "/Private/" + utils.GetCtxUsername(ctx) + "/DM/"`. -/
def topicDM (username : GoStr) : GoStr := gs "/Private/" ++ username ++ gs "/DM/"

/-- Line 96: `topicInverse := "/Private/" + part[4] + "/DM/" + username`,
where `part` is the `/`-split of the (normalized) topic criterion. -/
def dmMirror (username t : GoStr) : GoStr :=
  gs "/Private/" ++ (splitChar '/' t).getD 4 [] ++ gs "/DM/" ++ username

/-- Lines 88-98 of `presences.go`, applied to the normalized topic: when the
topic starts with the DM prefix, require exactly 5 `/`-separated segments
(abort otherwise) and append the comma-separated mirror topic. -/
def dmFilterTopic (username t : GoStr) : Except GoStr GoStr :=
  if (topicDM username).isPrefixOf t then
    if (splitChar '/' t).length ≠ 5 then
      .error (gs "Wrong topic name for DM:" ++ t)
    else .ok (t ++ ',' :: dmMirror username t)
  else .ok t

/-- The topic-criterion pipeline of `listWithCriteria`
(normalization of lines 84-86 followed by the DM expansion of lines 88-98). -/
def presenceTopicFilter (username rawTopic : GoStr) : Except GoStr GoStr :=
  dmFilterTopic username (normalizeTopic rawTopic)

/-- A presence record (`models.Presence`), restricted to the fields the
claims mention. -/
structure Presence where
  username : GoStr
  topic : GoStr
  status : GoStr
deriving DecidableEq, Repr

/-- Modelled from the spec: `models.ListPresences` (the `models` package is
not among the sources) treats the `Topic` criterion as a comma-joined list
of exact topic paths (spec section 9 calls the comma-joined criterion a
string-based list protocol): a presence matches when its topic is one of
the comma-separated values. -/
def topicFilterMatches (filterTopic presenceTopic : GoStr) : Bool :=
  decide (presenceTopic ∈ splitChar ',' filterTopic)

/-- `listWithCriteria` restricted to its topic criterion: build the topic
filter (lines 84-98) and, unless that aborted, return the presences whose
topic matches it (line 100, with the spec-modelled match semantics of
`topicFilterMatches`). -/
def listPresencesDM (username rawTopic : GoStr) (store : List Presence) :
    Except GoStr (List Presence) :=
  match presenceTopicFilter username rawTopic with
  | .error e => .error e
  | .ok f => .ok (store.filter fun p => topicFilterMatches f p.topic)

/-! ## Criteria building (`presences.go` lines 33-51, `users.go` lines 26-50) -/

/-- All-digit check used by `goAtoi`. -/
def allDigits (s : GoStr) : Bool := s.all fun c => decide ('0' ≤ c) && decide (c ≤ '9')

/-- Digit-sequence value. -/
def digitsVal (s : GoStr) : Nat := s.foldl (fun acc c => acc * 10 + (c.toNat - 48)) 0

/-- Mirror of Go `strconv.Atoi` on 64-bit int: an optional sign followed by
at least one digit, erroring on any other shape and on 64-bit overflow
(Go returns `ErrRange` there, which the callers treat as a parse failure). -/
def goAtoi (s : GoStr) : Option Int :=
  let core : GoStr → Option Int := fun d =>
    if d ≠ [] ∧ allDigits d then some (digitsVal d) else none
  match s with
  | '+' :: rest => (core rest).filter (fun n => n ≤ 9223372036854775807)
  | '-' :: rest => ((core rest).map (fun n => -n)).filter (fun n => -9223372036854775808 ≤ n)
  | _ => (core s).filter (fun n => n ≤ 9223372036854775807)

/-- `PresencesController.buildCriteria`, lines 40-44 of `presences.go`:
`limit` defaults to `"100"` when the query parameter is absent
(`ctx.DefaultQuery`), and falls back to `10` when `strconv.Atoi` fails. -/
def presencesCriteriaLimit (limitParam : Option GoStr) : Int :=
  match goAtoi (limitParam.getD (gs "100")) with
  | some n => n
  | none => 10

/-- `UsersController.buildCriteria`, lines 33-36 of `users.go`: `limit`
defaults to `"100"` when absent and falls back to `100` when `strconv.Atoi`
fails. -/
def usersCriteriaLimit (limitParam : Option GoStr) : Int :=
  match goAtoi (limitParam.getD (gs "100")) with
  | some n => n
  | none => 100

/-! ## User lifecycle (`users.go`) -/

/-- Whitespace recognized by Go `strings.TrimSpace` (`unicode.IsSpace`),
restricted to the ASCII range, which covers every input of the claims. -/
def isSpaceChar (c : Char) : Bool :=
  c == ' ' || c == '\t' || c == '\n' || c == '\x0b' || c == '\x0c' || c == '\r'

/-- Mirror of Go `strings.TrimSpace`: drop leading and trailing whitespace. -/
def trimSpace (s : GoStr) : GoStr :=
  ((s.dropWhile isSpaceChar).reverse.dropWhile isSpaceChar).reverse

/-- Index of the first occurrence of a character, as Go `strings.Index`
(modelled with `Option` instead of `-1`). -/
def goIndexChar (c : Char) : GoStr → Option Nat
  | [] => none
  | a :: rest => if a = c then some 0 else (goIndexChar c rest).map (· + 1)

/-- The persisted user record (`models.User`), restricted to the fields the
claims mention. -/
structure StoredUser where
  username : GoStr
  fullname : GoStr
  email : GoStr
  isSystem : Bool
  isAdmin : Bool
  isArchived : Bool
deriving DecidableEq, Repr

/-- The user store backing `models.IsUsernameExists` / `FindByUsername` /
`User.Insert`. -/
structure UserStore where
  users : List StoredUser
deriving DecidableEq, Repr

/-- Modelled from the spec: `models.IsUsernameExists` (spec section 6,
`UniquenessCheck`) — some stored user has exactly this username. -/
def isUsernameExists (st : UserStore) (u : GoStr) : Bool :=
  st.users.any fun x => decide (x.username = u)

/-- Modelled from the spec: `models.IsEmailExists`. -/
def isEmailExists (st : UserStore) (e : GoStr) : Bool :=
  st.users.any fun x => decide (x.email = e)

/-- Modelled from the spec: `models.IsFullnameExists`. -/
def isFullnameExists (st : UserStore) (f : GoStr) : Bool :=
  st.users.any fun x => decide (x.fullname = f)

/-- Modelled from the spec: `models.User.FindByUsername` — the first stored
user with this username. -/
def findByUsername (st : UserStore) (u : GoStr) : Option StoredUser :=
  st.users.find? fun x => decide (x.username = u)

/-- The JSON body bound by `UsersController.Create` (lines 67-72). -/
structure UserCreateJSON where
  username : GoStr
  fullname : GoStr
  email : GoStr
  callback : GoStr
deriving DecidableEq, Repr

/-- Read-only configuration consumed by the controllers (`viper`). -/
structure Config where
  usernameFromEmail : Bool
  allowedDomains : GoStr
deriving DecidableEq, Repr

/-- `computeUsername` (lines 135-143 of `users.go`): when the
`username_from_email` policy is on and the raw email contains `@` at a
positive index, the email local-part; otherwise the submitted username. -/
def computeUsername (cfg : Config) (j : UserCreateJSON) : GoStr :=
  if cfg.usernameFromEmail then
    match goIndexChar '@' j.email with
    | some i => if 0 < i then j.email.take i else j.username
    | none => j.username
  else j.username

/-- `checkAllowedDomains` (lines 120-131): with a non-empty comma-separated
allowlist, the raw email must end in `"@" + domain` for some entry. -/
def checkAllowedDomains (cfg : Config) (j : UserCreateJSON) : Bool :=
  if cfg.allowedDomains ≠ [] then
    (splitChar ',' cfg.allowedDomains).any fun domain =>
      List.isSuffixOf ('@' :: domain) j.email
  else true

/-- Line 85 of `users.go`: the field-length validation of `Create`, on the
computed username (not trimmed) and the trimmed fullname and email. -/
def createFieldsTooShort (cfg : Config) (j : UserCreateJSON) : Bool :=
  decide ((computeUsername cfg j).length < 3)
    || decide ((trimSpace j.fullname).length < 3)
    || decide ((trimSpace j.email).length < 7)

/-- Line 97: the three uniqueness probes, on the raw request fields. -/
def duplicateExists (st : UserStore) (j : UserCreateJSON) : Bool :=
  isEmailExists st j.email || isUsernameExists st j.username
    || isFullnameExists st j.fullname

/-- The user persisted by `Create` (lines 79-82): computed username,
trimmed fullname and email, all flags clear. -/
def newStoredUser (cfg : Config) (j : UserCreateJSON) : StoredUser :=
  { username := computeUsername cfg j
    fullname := trimSpace j.fullname
    email := trimSpace j.email
    isSystem := false
    isAdmin := false
    isArchived := false }

/-- The rejection branches of `Create`, in source order: the length check
of line 85, the domain allowlist of line 91, the duplicate probes of
line 97 (the branch the spec taxonomy calls `ConflictError`). -/
inductive CreateError where
  | invalidFields
  | domainNotAllowed
  | conflict
deriving DecidableEq, Repr

/-- `UsersController.Create` (lines 76-118 of `users.go`): validate field
lengths, check the domain allowlist, probe uniqueness on the raw fields,
then persist the computed/trimmed user (`models.User.Insert`, modelled
from the spec as appending the pending user; the verification token and
the fire-and-forget mail/event are external side effects). -/
def createUser (cfg : Config) (st : UserStore) (j : UserCreateJSON) :
    Except CreateError (UserStore × StoredUser) :=
  if createFieldsTooShort cfg j then .error .invalidFields
  else if !checkAllowedDomains cfg j then .error .domainNotAllowed
  else if duplicateExists st j then .error .conflict
  else .ok ({ users := st.users ++ [newStoredUser cfg j] }, newStoredUser cfg j)

/-- The JSON body bound by `UsersController.Reset` (lines 179-183). -/
structure UserResetJSON where
  username : GoStr
  email : GoStr
  callback : GoStr
deriving DecidableEq, Repr

/-- The rejection branch of `Reset`. -/
inductive ResetError where
  | invalidFields
deriving DecidableEq, Repr

/-- `UsersController.Reset` (lines 186-209): trim username and email,
validate lengths (line 194), then ask for the reset token
(`models.User.AskReset` and the reset mail are external side effects;
the trimmed pair the operation proceeds with is returned). -/
def askReset (r : UserResetJSON) : Except ResetError (GoStr × GoStr) :=
  let username := trimSpace r.username
  let email := trimSpace r.email
  if decide (username.length < 3) || decide (email.length < 7) then
    .error .invalidFields
  else .ok (username, email)

/-- Replace every stored user carrying this username (the store update
behind `models.User` mutations). -/
def updateStoredUser (st : UserStore) (u : StoredUser) : UserStore :=
  { users := st.users.map fun x => if x.username = u.username then u else x }

/-- The rejection branches of `UsersController.Convert`, in source order. -/
inductive ConvertError where
  | badPrefixTatSystem
  | notFound
  | alreadySystem
deriving DecidableEq, Repr

/-- `UsersController.Convert` (lines 460-493): require the `tat.system`
username prefix, an existing target, and that the target is not already a
system user; then set `IsSystem` and return the freshly generated password
(`models.User.ConvertToSystem` is modelled from the spec: sets
`IsSystem=true` and regenerates the password, here the externally
generated value `genPassword`). -/
def convertUser (st : UserStore) (targetUsername genPassword : GoStr) :
    Except ConvertError (UserStore × GoStr) :=
  if !List.isPrefixOf (gs "tat.system") targetUsername then
    .error .badPrefixTatSystem
  else
    match findByUsername st targetUsername with
    | none => .error .notFound
    | some u =>
      if u.isSystem then .error .alreadySystem
      else .ok (updateStoredUser st { u with isSystem := true }, genPassword)

/-- The rejection branches of `UsersController.ResetSystemUser`, in source
order. -/
inductive ResetSystemError where
  | badPrefixTatSystem
  | notFound
  | notSystem
deriving DecidableEq, Repr

/-- `UsersController.ResetSystemUser` (lines 500-533): require the
`tat.system` username prefix (before any lookup), an existing target, and
`IsSystem`; then return the freshly generated password
(`models.User.ResetSystemUserPassword` is modelled from the spec:
regenerates and returns a new password, no other state change). -/
def resetSystemUser (st : UserStore) (targetUsername genPassword : GoStr) :
    Except ResetSystemError GoStr :=
  if !List.isPrefixOf (gs "tat.system") targetUsername then
    .error .badPrefixTatSystem
  else
    match findByUsername st targetUsername with
    | none => .error .notFound
    | some u =>
      if !u.isSystem then .error .notSystem
      else .ok genPassword

/-! ## Favorites and per-topic notifications (`users.go` lines 312-414) -/

/-- The profile state touched by the favorite/notification operations
(`models.User`): the favorite-topic list and the set of topics whose
notifications the user disabled (spec section 3,
`TopicsNotificationsDisabled`). -/
structure UserProfile where
  username : GoStr
  favoriteTopics : List GoStr
  notificationsDisabled : List GoStr
deriving DecidableEq, Repr

/-- Modelled from the spec: `models.User.AddFavoriteTopic` — add the topic
to the favorites set (idempotent add, spec section 4.4). -/
def profileAddFavoriteTopic (u : UserProfile) (t : GoStr) : UserProfile :=
  if t ∈ u.favoriteTopics then u
  else { u with favoriteTopics := u.favoriteTopics ++ [t] }

/-- Modelled from the spec: `models.User.RemoveFavoriteTopic` — tolerant
removal from the favorites set. -/
def profileRemoveFavoriteTopic (u : UserProfile) (t : GoStr) : UserProfile :=
  { u with favoriteTopics := u.favoriteTopics.filter fun x => decide (x ≠ t) }

/-- Modelled from the spec: `models.User.EnableNotificationsTopic` — drop
the topic from the disabled-notifications set. -/
def profileEnableNotificationsTopic (u : UserProfile) (t : GoStr) : UserProfile :=
  { u with notificationsDisabled := u.notificationsDisabled.filter fun x => decide (x ≠ t) }

/-- The rejection branches of `AddFavoriteTopic` /
`EnableNotificationsTopic`, in source order: missing topic (line 326 /
line 378), then no read access (line 332 / line 384). -/
inductive FavoriteError where
  | topicNotFound
  | forbidden
deriving DecidableEq, Repr

/-- `UsersController.AddFavoriteTopic` (lines 313-342): the topic must
exist (`models.Topic.FindByTopic`, modelled as membership in the list of
existing topic paths) and the user must hold read access
(`models.Topic.IsUserReadAccess`, an abstract ACL predicate per spec
section 4.1); then the favorites set is extended. -/
def addFavoriteTopicCtrl (topics : List GoStr) (readAccess : GoStr → GoStr → Bool)
    (u : UserProfile) (topicIn : GoStr) : Except FavoriteError UserProfile :=
  if topicIn ∈ topics then
    if readAccess topicIn u.username then .ok (profileAddFavoriteTopic u topicIn)
    else .error .forbidden
  else .error .topicNotFound

/-- `UsersController.RemoveFavoriteTopic` (lines 345-362): no topic lookup
and no access check; the tolerant removal always succeeds. -/
def removeFavoriteTopicCtrl (u : UserProfile) (topicIn : GoStr) :
    Except FavoriteError UserProfile :=
  .ok (profileRemoveFavoriteTopic u topicIn)

/-- `UsersController.EnableNotificationsTopic` (lines 365-394): same
existence and read-access guards as `AddFavoriteTopic`. -/
def enableNotificationsTopicCtrl (topics : List GoStr) (readAccess : GoStr → GoStr → Bool)
    (u : UserProfile) (topicIn : GoStr) : Except FavoriteError UserProfile :=
  if topicIn ∈ topics then
    if readAccess topicIn u.username then .ok (profileEnableNotificationsTopic u topicIn)
    else .error .forbidden
  else .error .topicNotFound

/-! ## Consistency check of the private topics (`users.go` lines 705-730) -/

/-- One entry appended to the `topicsInfo` string by `checkTopics`:
`"<name> OK; "`, `"<name> KO : not exist; "`, `"<name> created; "`, or
`"Error while creating <name>; "` (the last is unreachable here because
the modelled topic creation always succeeds). -/
inductive TopicRecord where
  | ok (topicName : GoStr)
  | ko (topicName : GoStr)
  | created (topicName : GoStr)
  | createFailed (topicName : GoStr)
deriving DecidableEq, Repr

/-- Lines 709-712: `/Private/<username>` with `/<shortName>` appended when
the short name is non-empty. -/
def privateTopicName (username shortName : GoStr) : GoStr :=
  if shortName = [] then gs "/Private/" ++ username
  else gs "/Private/" ++ username ++ '/' :: shortName

/-- Line 707: the canonical short names, in source order. -/
def topicShortNames : List GoStr := [[], gs "Tasks", gs "Bookmarks", gs "Notifications"]

/-- The loop body of `checkTopics` (lines 708-728) for one short name:
look the topic up (`models.Topic.FindByTopic`, modelled as membership in
the list of existing topic paths); when present, record OK; when absent,
record KO and, when fixing, additionally create the topic
(`models.User.CreatePrivateTopic`, modelled from the spec as creating
`/Private/<username>[/<shortName>]`) and record the creation. -/
def checkTopicsStep (fixTopics : Bool) (username : GoStr) (topics : List GoStr)
    (shortName : GoStr) : List TopicRecord × List GoStr :=
  let topicName := privateTopicName username shortName
  if decide (topicName ∈ topics) then
    ([TopicRecord.ok topicName], topics)
  else if fixTopics then
    ([TopicRecord.ko topicName, TopicRecord.created topicName], topics ++ [topicName])
  else
    ([TopicRecord.ko topicName], topics)

/-- The loop of `checkTopics` over a list of short names, threading the
topic store (a topic created for an earlier short name exists for the
later lookups, as with the backing database in the source). -/
def checkTopicsGo (fixTopics : Bool) (username : GoStr) :
    List GoStr → List GoStr → List TopicRecord × List GoStr
  | topics, [] => ([], topics)
  | topics, shortName :: rest =>
    let step := checkTopicsStep fixTopics username topics shortName
    let next := checkTopicsGo fixTopics username step.2 rest
    (step.1 ++ next.1, next.2)

/-- `UsersController.checkTopics` (lines 705-730): the four canonical
short names in source order, returning the recorded entries and the
resulting topic store. -/
def checkTopics (fixTopics : Bool) (username : GoStr) (topics : List GoStr) :
    List TopicRecord × List GoStr :=
  checkTopicsGo fixTopics username topics topicShortNames

/-! ## Theorems -/

/-- Claim C10: a present but unparseable `limit` query parameter yields an
effective presence-list limit of 10, while an absent parameter yields 100,
and the user-list fallback for an unparseable parameter is 100 — the
presence fallback differs from the declared default of 100. -/
theorem presences_limit_fallback (s : GoStr) (h : goAtoi s = none) :
    presencesCriteriaLimit (some s) = 10 ∧ usersCriteriaLimit (some s) = 100
      ∧ presencesCriteriaLimit none = 100 ∧ usersCriteriaLimit none = 100
      ∧ presencesCriteriaLimit (some s) ≠ presencesCriteriaLimit none := by
  refine ⟨?_, ?_, by decide, by decide, ?_⟩
  · simp [presencesCriteriaLimit, h]
  · simp [usersCriteriaLimit, h]
  · simp [presencesCriteriaLimit, h]
    decide

/-- Witness for C10 at the unparseable parameter `"abc"`. -/
theorem presences_limit_fallback_witness :
    presencesCriteriaLimit (some (gs "abc")) = 10
      ∧ usersCriteriaLimit (some (gs "abc")) = 100
      ∧ presencesCriteriaLimit none = 100 := by
  have h := presences_limit_fallback (gs "abc") (by decide)
  exact ⟨h.1, h.2.1, h.2.2.1⟩

/-- Claim C9: `ResetSystemUser` rejects a target username without the
`tat.system` prefix for every store (so even a stored system user with
such a name can never be reset through this operation), and otherwise
requires the target to exist and to have `IsSystem`. -/
theorem resetSystemUser_guards (st : UserStore) (target p : GoStr) :
    (List.isPrefixOf (gs "tat.system") target = false →
      resetSystemUser st target p = .error .badPrefixTatSystem)
    ∧ (List.isPrefixOf (gs "tat.system") target = true →
        findByUsername st target = none →
        resetSystemUser st target p = .error .notFound)
    ∧ (∀ u, List.isPrefixOf (gs "tat.system") target = true →
        findByUsername st target = some u → u.isSystem = false →
        resetSystemUser st target p = .error .notSystem)
    ∧ (∀ u, List.isPrefixOf (gs "tat.system") target = true →
        findByUsername st target = some u → u.isSystem = true →
        resetSystemUser st target p = .ok p) := by
  refine ⟨?_, ?_, ?_, ?_⟩
  · intro h; simp [resetSystemUser, h]
  · intro h hf; simp [resetSystemUser, h, hf]
  · intro u h hf hs; simp [resetSystemUser, h, hf, hs]
  · intro u h hf hs; simp [resetSystemUser, h, hf, hs]

/-- Witness for C9: a store holding a system user named `sysguy` (no
prefix), a plain user `tat.system.a`, and a system user `tat.system.b`. -/
theorem resetSystemUser_guards_witness :
    resetSystemUser (UserStore.mk
      [StoredUser.mk (gs "sysguy") (gs "S") (gs "s@x.yy") true false false,
       StoredUser.mk (gs "tat.system.a") (gs "A") (gs "a@x.yy") false false false,
       StoredUser.mk (gs "tat.system.b") (gs "B") (gs "b@x.yy") true false false])
      (gs "sysguy") (gs "pw") = .error .badPrefixTatSystem
    ∧ resetSystemUser (UserStore.mk
      [StoredUser.mk (gs "sysguy") (gs "S") (gs "s@x.yy") true false false,
       StoredUser.mk (gs "tat.system.a") (gs "A") (gs "a@x.yy") false false false,
       StoredUser.mk (gs "tat.system.b") (gs "B") (gs "b@x.yy") true false false])
      (gs "tat.system.c") (gs "pw") = .error .notFound
    ∧ resetSystemUser (UserStore.mk
      [StoredUser.mk (gs "sysguy") (gs "S") (gs "s@x.yy") true false false,
       StoredUser.mk (gs "tat.system.a") (gs "A") (gs "a@x.yy") false false false,
       StoredUser.mk (gs "tat.system.b") (gs "B") (gs "b@x.yy") true false false])
      (gs "tat.system.a") (gs "pw") = .error .notSystem
    ∧ resetSystemUser (UserStore.mk
      [StoredUser.mk (gs "sysguy") (gs "S") (gs "s@x.yy") true false false,
       StoredUser.mk (gs "tat.system.a") (gs "A") (gs "a@x.yy") false false false,
       StoredUser.mk (gs "tat.system.b") (gs "B") (gs "b@x.yy") true false false])
      (gs "tat.system.b") (gs "pw") = .ok (gs "pw") := by
  exact ⟨(resetSystemUser_guards (UserStore.mk
      [StoredUser.mk (gs "sysguy") (gs "S") (gs "s@x.yy") true false false,
       StoredUser.mk (gs "tat.system.a") (gs "A") (gs "a@x.yy") false false false,
       StoredUser.mk (gs "tat.system.b") (gs "B") (gs "b@x.yy") true false false])
      (gs "sysguy") (gs "pw")).1 (by decide),
    (resetSystemUser_guards (UserStore.mk
      [StoredUser.mk (gs "sysguy") (gs "S") (gs "s@x.yy") true false false,
       StoredUser.mk (gs "tat.system.a") (gs "A") (gs "a@x.yy") false false false,
       StoredUser.mk (gs "tat.system.b") (gs "B") (gs "b@x.yy") true false false])
      (gs "tat.system.c") (gs "pw")).2.1 (by decide) (by decide),
    (resetSystemUser_guards (UserStore.mk
      [StoredUser.mk (gs "sysguy") (gs "S") (gs "s@x.yy") true false false,
       StoredUser.mk (gs "tat.system.a") (gs "A") (gs "a@x.yy") false false false,
       StoredUser.mk (gs "tat.system.b") (gs "B") (gs "b@x.yy") true false false])
      (gs "tat.system.a") (gs "pw")).2.2.1
      (StoredUser.mk (gs "tat.system.a") (gs "A") (gs "a@x.yy") false false false)
      (by decide) (by decide) (by decide),
    (resetSystemUser_guards (UserStore.mk
      [StoredUser.mk (gs "sysguy") (gs "S") (gs "s@x.yy") true false false,
       StoredUser.mk (gs "tat.system.a") (gs "A") (gs "a@x.yy") false false false,
       StoredUser.mk (gs "tat.system.b") (gs "B") (gs "b@x.yy") true false false])
      (gs "tat.system.b") (gs "pw")).2.2.2
      (StoredUser.mk (gs "tat.system.b") (gs "B") (gs "b@x.yy") true false false)
      (by decide) (by decide) (by decide)⟩

theorem find?_username_update (l : List StoredUser) (target : GoStr) (u u' : StoredUser)
    (hname : u'.username = u.username)
    (hfind : l.find? (fun x => decide (x.username = target)) = some u) :
    (l.map fun x => if x.username = u'.username then u' else x).find?
        (fun x => decide (x.username = target)) = some u' := by
  induction l with
  | nil => simp at hfind
  | cons a l ih =>
    have hu : u.username = target := by simpa using List.find?_some hfind
    by_cases ha : a.username = target
    · have hua : a = u := by
        rw [List.find?_cons_of_pos _ (by simpa using ha)] at hfind
        exact Option.some.inj hfind
      have hcond : a.username = u'.username := by rw [hname, hua]
      rw [List.map_cons, if_pos hcond,
        List.find?_cons_of_pos _ (by simp [hname, hu])]
    · rw [List.find?_cons_of_neg _ (by simpa using ha)] at hfind
      have hne : a.username ≠ u'.username := by rw [hname, hu]; exact ha
      rw [List.map_cons, if_neg hne,
        List.find?_cons_of_neg _ (by simpa using ha)]
      exact ih hfind

theorem findByUsername_update (st : UserStore) (target : GoStr) (u u' : StoredUser)
    (hname : u'.username = u.username)
    (hfind : findByUsername st target = some u) :
    findByUsername (updateStoredUser st u') target = some u' :=
  find?_username_update st.users target u u' hname hfind

/-- Claim C4: `Convert` fails on any target username without the
`tat.system` prefix; on an existing non-system user with the prefix it
succeeds, sets `IsSystem`, and returns the freshly generated password;
invoked again on the now-system user it is rejected as already-system
(the spec's `ConflictError`), not a silent success. -/
theorem convertUser_spec (st : UserStore) (bad target p p2 : GoStr) (u : StoredUser)
    (hbad : List.isPrefixOf (gs "tat.system") bad = false)
    (hpre : List.isPrefixOf (gs "tat.system") target = true)
    (hfind : findByUsername st target = some u)
    (hsys : u.isSystem = false) :
    convertUser st bad p = .error .badPrefixTatSystem
    ∧ convertUser st target p = .ok (updateStoredUser st { u with isSystem := true }, p)
    ∧ findByUsername (updateStoredUser st { u with isSystem := true }) target
        = some { u with isSystem := true }
    ∧ convertUser (updateStoredUser st { u with isSystem := true }) target p2
        = .error .alreadySystem := by
  have hfind2 : findByUsername (updateStoredUser st { u with isSystem := true }) target
      = some { u with isSystem := true } :=
    findByUsername_update st target u _ rfl hfind
  refine ⟨?_, ?_, hfind2, ?_⟩
  · simp [convertUser, hbad]
  · simp [convertUser, hpre, hfind, hsys]
  · simp [convertUser, hpre, hfind2]

/-- Witness for C4: converting `tat.system.bob`, then converting again. -/
theorem convertUser_spec_witness :
    convertUser (UserStore.mk
        [StoredUser.mk (gs "tat.system.bob") (gs "Bob") (gs "b@x.yy") false false false])
      (gs "bob") (gs "pw1") = .error .badPrefixTatSystem
    ∧ convertUser (UserStore.mk
        [StoredUser.mk (gs "tat.system.bob") (gs "Bob") (gs "b@x.yy") false false false])
      (gs "tat.system.bob") (gs "pw1")
      = .ok (updateStoredUser (UserStore.mk
          [StoredUser.mk (gs "tat.system.bob") (gs "Bob") (gs "b@x.yy") false false false])
          (StoredUser.mk (gs "tat.system.bob") (gs "Bob") (gs "b@x.yy") true false false), gs "pw1")
    ∧ findByUsername (updateStoredUser (UserStore.mk
          [StoredUser.mk (gs "tat.system.bob") (gs "Bob") (gs "b@x.yy") false false false])
          (StoredUser.mk (gs "tat.system.bob") (gs "Bob") (gs "b@x.yy") true false false))
        (gs "tat.system.bob")
        = some (StoredUser.mk (gs "tat.system.bob") (gs "Bob") (gs "b@x.yy") true false false)
    ∧ convertUser (updateStoredUser (UserStore.mk
          [StoredUser.mk (gs "tat.system.bob") (gs "Bob") (gs "b@x.yy") false false false])
          (StoredUser.mk (gs "tat.system.bob") (gs "Bob") (gs "b@x.yy") true false false))
        (gs "tat.system.bob") (gs "pw2") = .error .alreadySystem :=
  convertUser_spec (UserStore.mk
      [StoredUser.mk (gs "tat.system.bob") (gs "Bob") (gs "b@x.yy") false false false])
    (gs "bob") (gs "tat.system.bob") (gs "pw1") (gs "pw2")
    (StoredUser.mk (gs "tat.system.bob") (gs "Bob") (gs "b@x.yy") false false false)
    (by decide) (by decide) (by decide) (by decide)

/-- Claim C6: `AddFavoriteTopic` and `EnableNotificationsTopic` succeed
(and record the topic) exactly when the topic exists and the user holds
read access, rejecting with Forbidden when read access is absent (and with
the not-found error when the topic does not exist); `RemoveFavoriteTopic`
succeeds with no topic lookup and no access re-check — here even on a
topic the user cannot read. -/
theorem favoriteTopic_guards (topics : List GoStr) (readAccess : GoStr → GoStr → Bool)
    (u : UserProfile) (t1 t2 t3 : GoStr)
    (h1 : t1 ∈ topics) (h1r : readAccess t1 u.username = true)
    (h2 : t2 ∈ topics) (h2r : readAccess t2 u.username = false)
    (h3 : t3 ∉ topics) :
    addFavoriteTopicCtrl topics readAccess u t1 = .ok (profileAddFavoriteTopic u t1)
    ∧ t1 ∈ (profileAddFavoriteTopic u t1).favoriteTopics
    ∧ addFavoriteTopicCtrl topics readAccess u t2 = .error .forbidden
    ∧ addFavoriteTopicCtrl topics readAccess u t3 = .error .topicNotFound
    ∧ enableNotificationsTopicCtrl topics readAccess u t1
        = .ok (profileEnableNotificationsTopic u t1)
    ∧ enableNotificationsTopicCtrl topics readAccess u t2 = .error .forbidden
    ∧ enableNotificationsTopicCtrl topics readAccess u t3 = .error .topicNotFound
    ∧ removeFavoriteTopicCtrl u t2 = .ok (profileRemoveFavoriteTopic u t2) := by
  refine ⟨?_, ?_, ?_, ?_, ?_, ?_, ?_, rfl⟩
  · simp [addFavoriteTopicCtrl, h1, h1r]
  · simp only [profileAddFavoriteTopic]
    split
    · assumption
    · simp
  · simp [addFavoriteTopicCtrl, h2, h2r]
  · simp [addFavoriteTopicCtrl, h3]
  · simp [enableNotificationsTopicCtrl, h1, h1r]
  · simp [enableNotificationsTopicCtrl, h2, h2r]
  · simp [enableNotificationsTopicCtrl, h3]

/-- Witness for C6: user `joe` can read `/T1` but not `/T2`; `/T3` does
not exist. -/
theorem favoriteTopic_guards_witness :
    addFavoriteTopicCtrl [gs "/T1", gs "/T2"] (fun t _ => decide (t = gs "/T1"))
        (UserProfile.mk (gs "joe") [] []) (gs "/T1")
      = .ok (profileAddFavoriteTopic (UserProfile.mk (gs "joe") [] []) (gs "/T1"))
    ∧ gs "/T1" ∈ (profileAddFavoriteTopic (UserProfile.mk (gs "joe") [] []) (gs "/T1")).favoriteTopics
    ∧ addFavoriteTopicCtrl [gs "/T1", gs "/T2"] (fun t _ => decide (t = gs "/T1"))
        (UserProfile.mk (gs "joe") [] []) (gs "/T2") = .error .forbidden
    ∧ addFavoriteTopicCtrl [gs "/T1", gs "/T2"] (fun t _ => decide (t = gs "/T1"))
        (UserProfile.mk (gs "joe") [] []) (gs "/T3") = .error .topicNotFound
    ∧ enableNotificationsTopicCtrl [gs "/T1", gs "/T2"] (fun t _ => decide (t = gs "/T1"))
        (UserProfile.mk (gs "joe") [] []) (gs "/T1")
      = .ok (profileEnableNotificationsTopic (UserProfile.mk (gs "joe") [] []) (gs "/T1"))
    ∧ enableNotificationsTopicCtrl [gs "/T1", gs "/T2"] (fun t _ => decide (t = gs "/T1"))
        (UserProfile.mk (gs "joe") [] []) (gs "/T2") = .error .forbidden
    ∧ enableNotificationsTopicCtrl [gs "/T1", gs "/T2"] (fun t _ => decide (t = gs "/T1"))
        (UserProfile.mk (gs "joe") [] []) (gs "/T3") = .error .topicNotFound
    ∧ removeFavoriteTopicCtrl (UserProfile.mk (gs "joe") [] []) (gs "/T2")
      = .ok (profileRemoveFavoriteTopic (UserProfile.mk (gs "joe") [] []) (gs "/T2")) :=
  favoriteTopic_guards [gs "/T1", gs "/T2"] (fun t _ => decide (t = gs "/T1"))
    (UserProfile.mk (gs "joe") [] []) (gs "/T1") (gs "/T2") (gs "/T3")
    (by decide) (by decide) (by decide) (by decide) (by decide)

/-- Claim C2: a presence-list request whose normalized topic starts with
the requester's DM prefix but does not split into exactly 5 `/`-separated
segments aborts with the fatal DM-path error; no (partial or empty)
presence list is returned. -/
theorem dm_wrong_segment_count_fails (u t : GoStr) (store : List Presence)
    (hpre : List.isPrefixOf (topicDM u) (normalizeTopic t) = true)
    (hlen : (splitChar '/' (normalizeTopic t)).length ≠ 5) :
    listPresencesDM u t store
      = .error (gs "Wrong topic name for DM:" ++ normalizeTopic t) := by
  simp [listPresencesDM, presenceTopicFilter, dmFilterTopic, hpre, hlen]

/-- Witness for C2 at `Private/alice/DM/bob/x` (6 segments after
normalization), with a non-empty presence store. -/
theorem dm_wrong_segment_count_fails_witness :
    listPresencesDM (gs "alice") (gs "Private/alice/DM/bob/x")
        [Presence.mk (gs "alice") (gs "/Private/alice/DM/bob/x") (gs "online")]
      = .error (gs "Wrong topic name for DM:" ++ normalizeTopic (gs "Private/alice/DM/bob/x")) :=
  dm_wrong_segment_count_fails (gs "alice") (gs "Private/alice/DM/bob/x")
    [Presence.mk (gs "alice") (gs "/Private/alice/DM/bob/x") (gs "online")]
    (by decide) (by decide)

theorem mem_of_isPrefixOf {a b : GoStr} (h : List.isPrefixOf a b = true) {c : Char}
    (hc : c ∈ a) : c ∈ b :=
  (List.isPrefixOf_iff_prefix.mp h).subset hc

theorem dm_peer_mem (t : GoStr) (hlen : (splitChar '/' t).length = 5) :
    (splitChar '/' t).getD 4 [] ∈ splitChar '/' t := by
  have h4 : 4 < (splitChar '/' t).length := by omega
  rw [List.getD_eq_getElem _ _ h4]
  exact List.getElem_mem h4

theorem comma_not_mem_dmMirror (u t : GoStr)
    (hpre : List.isPrefixOf (topicDM u) t = true)
    (hlen : (splitChar '/' t).length = 5)
    (hc : ',' ∉ t) : ',' ∉ dmMirror u t := by
  intro hm
  rw [dmMirror, List.mem_append, List.mem_append, List.mem_append] at hm
  rcases hm with ((h | h) | h) | h
  · exact absurd h (by decide)
  · exact hc (mem_of_mem_splitChar (dm_peer_mem t hlen) h)
  · exact absurd h (by decide)
  · exact hc (mem_of_isPrefixOf hpre (by rw [topicDM]; simp [h]))

/-- The exact-match characterization of the comma-joined DM filter, for
comma-free topic paths. -/
theorem dm_filter_matches_iff (u t : GoStr)
    (hpre : List.isPrefixOf (topicDM u) t = true)
    (hlen : (splitChar '/' t).length = 5)
    (hc : ',' ∉ t) (p : GoStr) :
    topicFilterMatches (t ++ ',' :: dmMirror u t) p = true
      ↔ (p = t ∨ p = dmMirror u t) := by
  rw [topicFilterMatches, splitChar_append _ hc,
    splitChar_of_not_mem (comma_not_mem_dmMirror u t hpre hlen hc)]
  simp

/-- Claim C1 (amended: for topic paths containing no comma): on a DM path
— normalized topic carrying the requester's DM prefix and splitting into
exactly 5 segments — `listWithCriteria` builds the filter
`<topic>,<mirror>` with mirror `/Private/<peer>/DM/<requester>`, and that
filter matches exactly the presences whose topic equals the normalized
path or the mirror path. -/
theorem dm_presence_filter_exact (u t : GoStr)
    (hpre : List.isPrefixOf (topicDM u) (normalizeTopic t) = true)
    (hlen : (splitChar '/' (normalizeTopic t)).length = 5)
    (hc : ',' ∉ normalizeTopic t) :
    presenceTopicFilter u t
      = .ok (normalizeTopic t ++ ',' :: dmMirror u (normalizeTopic t))
    ∧ ∀ p, topicFilterMatches (normalizeTopic t ++ ',' :: dmMirror u (normalizeTopic t)) p = true
        ↔ (p = normalizeTopic t ∨ p = dmMirror u (normalizeTopic t)) := by
  constructor
  · simp [presenceTopicFilter, dmFilterTopic, hpre, hlen]
  · exact dm_filter_matches_iff u (normalizeTopic t) hpre hlen hc

/-- Witness for C1 (amended) at `alice` querying `Private/alice/DM/bob`:
the filter is built, the mirror path matches and a foreign path does not. -/
theorem dm_presence_filter_exact_witness :
    presenceTopicFilter (gs "alice") (gs "Private/alice/DM/bob")
      = .ok (gs "/Private/alice/DM/bob,/Private/bob/DM/alice")
    ∧ topicFilterMatches (gs "/Private/alice/DM/bob,/Private/bob/DM/alice")
        (gs "/Private/bob/DM/alice") = true
    ∧ topicFilterMatches (gs "/Private/alice/DM/bob,/Private/bob/DM/alice")
        (gs "/Private/eve") = false := by
  have h := dm_presence_filter_exact (gs "alice") (gs "Private/alice/DM/bob")
    (by decide) (by decide) (by decide)
  refine ⟨h.1.trans (by decide), ?_, ?_⟩
  · exact (h.2 (gs "/Private/bob/DM/alice")).mpr (by right; decide)
  · have := h.2 (gs "/Private/eve")
    rw [Bool.eq_false_iff]
    intro hx
    rcases this.mp hx with hy | hy
    · exact absurd hy (by decide)
    · exact absurd hy (by decide)

/-- Counterexample to C1 as stated: for the DM path
`/Private/alice/DM/bo,b` — which satisfies the claim's hypotheses (DM
prefix, exactly 5 `/`-segments) — the comma-joined filter does not match
a presence at the normalized path itself, and does match the foreign
topic `b`, so the filter does not match exactly the normalized and mirror
paths. -/
theorem dm_presence_filter_comma_cex :
    List.isPrefixOf (topicDM (gs "alice")) (normalizeTopic (gs "Private/alice/DM/bo,b")) = true
    ∧ (splitChar '/' (normalizeTopic (gs "Private/alice/DM/bo,b"))).length = 5
    ∧ dmMirror (gs "alice") (normalizeTopic (gs "Private/alice/DM/bo,b"))
        = gs "/Private/bo,b/DM/alice"
    ∧ presenceTopicFilter (gs "alice") (gs "Private/alice/DM/bo,b")
        = .ok (gs "/Private/alice/DM/bo,b,/Private/bo,b/DM/alice")
    ∧ topicFilterMatches (gs "/Private/alice/DM/bo,b,/Private/bo,b/DM/alice")
        (normalizeTopic (gs "Private/alice/DM/bo,b")) = false
    ∧ topicFilterMatches (gs "/Private/alice/DM/bo,b,/Private/bo,b/DM/alice")
        (gs "b") = true :=
  ⟨by decide, by decide, by decide, by decide, by decide, by decide⟩

theorem createUser_ok_inv (cfg : Config) (st : UserStore) (j : UserCreateJSON)
    (st' : UserStore) (u : StoredUser) (h : createUser cfg st j = .ok (st', u)) :
    createFieldsTooShort cfg j = false ∧ checkAllowedDomains cfg j = true
    ∧ duplicateExists st j = false ∧ u = newStoredUser cfg j
    ∧ st'.users = st.users ++ [newStoredUser cfg j] := by
  by_cases h1 : createFieldsTooShort cfg j = true
  · rw [createUser, if_pos h1] at h
    exact absurd h (by simp)
  rw [Bool.not_eq_true] at h1
  by_cases h2 : checkAllowedDomains cfg j = true
  · by_cases h3 : duplicateExists st j = true
    · rw [createUser, if_neg (by simp [h1]), if_neg (by simp [h2]), if_pos h3] at h
      exact absurd h (by simp)
    · rw [Bool.not_eq_true] at h3
      rw [createUser, if_neg (by simp [h1]), if_neg (by simp [h2]), if_neg (by simp [h3])] at h
      have hp := Except.ok.inj h
      refine ⟨h1, h2, h3, ?_, ?_⟩
      · exact (congrArg Prod.snd hp).symm
      · have hfst : UserStore.mk (st.users ++ [newStoredUser cfg j]) = st' :=
          congrArg Prod.fst hp
        rw [← hfst]
  · rw [Bool.not_eq_true] at h2
    rw [createUser, if_neg (by simp [h1]), if_pos (by simp [h2])] at h
    exact absurd h (by simp)

/-- Claim C3 (amended: the shared field must equal its trimmed form — for
a shared username, the username-from-email policy must be off — and the
second request must itself pass the length validation and the domain
allowlist): after a successful Create, a second Create sharing the email
(or username, or fullname) is rejected by the uniqueness probes with the
duplicate-conflict error, and no second user is persisted. -/
theorem create_duplicate_second_conflict (cfg : Config) (st st' : UserStore)
    (j1 j2 : UserCreateJSON) (u1 : StoredUser)
    (h1 : createUser cfg st j1 = .ok (st', u1))
    (hval : createFieldsTooShort cfg j2 = false)
    (hdom : checkAllowedDomains cfg j2 = true)
    (hsame : (j2.email = j1.email ∧ trimSpace j1.email = j1.email)
      ∨ (j2.username = j1.username ∧ cfg.usernameFromEmail = false)
      ∨ (j2.fullname = j1.fullname ∧ trimSpace j1.fullname = j1.fullname)) :
    createUser cfg st' j2 = .error .conflict := by
  obtain ⟨-, -, -, -, hst'⟩ := createUser_ok_inv cfg st j1 st' u1 h1
  have hmem : newStoredUser cfg j1 ∈ st'.users := by
    rw [hst']
    exact List.mem_append_right _ (List.mem_singleton.mpr rfl)
  have hdup : duplicateExists st' j2 = true := by
    rcases hsame with ⟨he, ht⟩ | ⟨hu, hpol⟩ | ⟨hf, ht⟩
    · have hx : isEmailExists st' j2.email = true :=
        List.any_eq_true.mpr ⟨newStoredUser cfg j1, hmem, by simp [newStoredUser, he, ht]⟩
      simp [duplicateExists, hx]
    · have hcu : computeUsername cfg j1 = j1.username := by
        simp [computeUsername, hpol]
      have hx : isUsernameExists st' j2.username = true :=
        List.any_eq_true.mpr ⟨newStoredUser cfg j1, hmem, by simp [newStoredUser, hcu, hu]⟩
      simp [duplicateExists, hx]
    · have hx : isFullnameExists st' j2.fullname = true :=
        List.any_eq_true.mpr ⟨newStoredUser cfg j1, hmem, by simp [newStoredUser, hf, ht]⟩
      simp [duplicateExists, hx]
  rw [createUser, if_neg (by simp [hval]), if_neg (by simp [hdom]), if_pos hdup]

/-- Counterexample to C3 as stated: both Create requests carry the same
email `" ab@cd.ef"` (with a leading space); the first succeeds and
persists the trimmed email, so the second's raw-value probe misses it and
the second request is also persisted instead of being rejected. -/
theorem create_duplicate_cex :
    createUser (Config.mk false []) (UserStore.mk [])
        (UserCreateJSON.mk (gs "uuu") (gs "AAA") (gs " ab@cd.ef") [])
      = .ok (UserStore.mk
          [StoredUser.mk (gs "uuu") (gs "AAA") (gs "ab@cd.ef") false false false],
        StoredUser.mk (gs "uuu") (gs "AAA") (gs "ab@cd.ef") false false false)
    ∧ createUser (Config.mk false [])
        (UserStore.mk [StoredUser.mk (gs "uuu") (gs "AAA") (gs "ab@cd.ef") false false false])
        (UserCreateJSON.mk (gs "vvv") (gs "BBB") (gs " ab@cd.ef") [])
      = .ok (UserStore.mk
          [StoredUser.mk (gs "uuu") (gs "AAA") (gs "ab@cd.ef") false false false,
           StoredUser.mk (gs "vvv") (gs "BBB") (gs "ab@cd.ef") false false false],
        StoredUser.mk (gs "vvv") (gs "BBB") (gs "ab@cd.ef") false false false) :=
  ⟨by decide, by decide⟩

/-- Witness for C3 (amended): two requests sharing the already-trimmed
email `ab@cd.ef`; the second is rejected with the conflict error. -/
theorem create_duplicate_second_conflict_witness :
    createUser (Config.mk false [])
        (UserStore.mk [StoredUser.mk (gs "uuu") (gs "AAA") (gs "ab@cd.ef") false false false])
        (UserCreateJSON.mk (gs "vvv") (gs "BBB") (gs "ab@cd.ef") [])
      = .error .conflict :=
  create_duplicate_second_conflict (Config.mk false []) (UserStore.mk [])
    (UserStore.mk [StoredUser.mk (gs "uuu") (gs "AAA") (gs "ab@cd.ef") false false false])
    (UserCreateJSON.mk (gs "uuu") (gs "AAA") (gs "ab@cd.ef") [])
    (UserCreateJSON.mk (gs "vvv") (gs "BBB") (gs "ab@cd.ef") [])
    (StoredUser.mk (gs "uuu") (gs "AAA") (gs "ab@cd.ef") false false false)
    (by decide) (by decide) (by decide) (Or.inl ⟨by decide, by decide⟩)

/-- Claim C7 (amended: `Create` validates the computed username — the
submitted or email-derived value, which is never trimmed — not the
trimmed username): `Create` rejects with the validation error exactly
when the computed username is shorter than 3, the trimmed fullname
shorter than 3, or the trimmed email shorter than 7; `Reset` rejects
exactly when the trimmed username is shorter than 3 or the trimmed email
shorter than 7. Both rejections precede any state change. -/
theorem create_reset_validation_iff (cfg : Config) (st : UserStore)
    (j : UserCreateJSON) (r : UserResetJSON) :
    (createUser cfg st j = .error .invalidFields
      ↔ ((computeUsername cfg j).length < 3 ∨ (trimSpace j.fullname).length < 3
          ∨ (trimSpace j.email).length < 7))
    ∧ (askReset r = .error .invalidFields
      ↔ ((trimSpace r.username).length < 3 ∨ (trimSpace r.email).length < 7)) := by
  constructor
  · constructor
    · intro h
      by_cases h1 : createFieldsTooShort cfg j = true
      · simpa [createFieldsTooShort, or_assoc] using h1
      · exfalso
        rw [Bool.not_eq_true] at h1
        by_cases h2 : checkAllowedDomains cfg j = true
        · by_cases h3 : duplicateExists st j = true
          · rw [createUser, if_neg (by simp [h1]), if_neg (by simp [h2]), if_pos h3] at h
            simp at h
          · rw [Bool.not_eq_true] at h3
            rw [createUser, if_neg (by simp [h1]), if_neg (by simp [h2]),
              if_neg (by simp [h3])] at h
            simp at h
        · rw [Bool.not_eq_true] at h2
          rw [createUser, if_neg (by simp [h1]), if_pos (by simp [h2])] at h
          simp at h
    · intro h
      have h1 : createFieldsTooShort cfg j = true := by
        simpa [createFieldsTooShort, or_assoc] using h
      rw [createUser, if_pos h1]
  · constructor
    · intro h
      by_cases h1 : (decide ((trimSpace r.username).length < 3)
          || decide ((trimSpace r.email).length < 7)) = true
      · simpa using h1
      · exfalso
        rw [askReset] at h
        rw [if_neg (by simp_all)] at h
        simp at h
    · intro h
      rw [askReset, if_pos (by simpa using h)]

/-- Witness for C7 (amended) at concrete too-short inputs: `Create` with
computed username `ab` and `Reset` with trimmed username `a` are both
rejected with the validation error. -/
theorem create_reset_validation_iff_witness :
    createUser (Config.mk false []) (UserStore.mk [])
        (UserCreateJSON.mk (gs "ab") (gs "AAA") (gs "ab@cd.ef") [])
      = .error .invalidFields
    ∧ askReset (UserResetJSON.mk (gs " a ") (gs "ab@cd.ef") []) = .error .invalidFields := by
  refine ⟨?_, ?_⟩
  · exact (create_reset_validation_iff (Config.mk false []) (UserStore.mk [])
      (UserCreateJSON.mk (gs "ab") (gs "AAA") (gs "ab@cd.ef") [])
      (UserResetJSON.mk (gs " a ") (gs "ab@cd.ef") [])).1.mpr (by decide)
  · exact (create_reset_validation_iff (Config.mk false []) (UserStore.mk [])
      (UserCreateJSON.mk (gs "ab") (gs "AAA") (gs "ab@cd.ef") [])
      (UserResetJSON.mk (gs " a ") (gs "ab@cd.ef") [])).2.mpr (by decide)

/-- Counterexample to C7 as stated: the request username `" a "` has
trimmed length 1 (< 3), yet `Create` does not reject it — the code checks
the untrimmed username — and the user is persisted with the untrimmed
username. -/
theorem create_untrimmed_username_cex :
    (trimSpace (gs " a ")).length < 3
    ∧ createUser (Config.mk false []) (UserStore.mk [])
        (UserCreateJSON.mk (gs " a ") (gs "AAA") (gs "ab@cd.ef") [])
      = .ok (UserStore.mk
          [StoredUser.mk (gs " a ") (gs "AAA") (gs "ab@cd.ef") false false false],
        StoredUser.mk (gs " a ") (gs "AAA") (gs "ab@cd.ef") false false false) :=
  ⟨by decide, by decide⟩

/-- Claim C8: a persisted user carries the computed username and trimmed
fullname/email, while the uniqueness probes deciding the conflict
rejection consult the raw request fields; for some inputs every persisted
field differs from the probed one. -/
theorem create_probes_raw_persists_computed :
    (∀ cfg st j st' u, createUser cfg st j = .ok (st', u) →
        u.username = computeUsername cfg j ∧ u.fullname = trimSpace j.fullname
        ∧ u.email = trimSpace j.email)
    ∧ (∀ cfg st j, createUser cfg st j = .error .conflict
        ↔ (createFieldsTooShort cfg j = false ∧ checkAllowedDomains cfg j = true
            ∧ (isEmailExists st j.email || isUsernameExists st j.username
                || isFullnameExists st j.fullname) = true))
    ∧ (∃ cfg j st' u, createUser cfg (UserStore.mk []) j = .ok (st', u)
        ∧ u.username ≠ j.username ∧ u.fullname ≠ j.fullname ∧ u.email ≠ j.email) := by
  refine ⟨?_, ?_, ?_⟩
  · intro cfg st j st' u h
    obtain ⟨-, -, -, hu, -⟩ := createUser_ok_inv cfg st j st' u h
    subst hu
    exact ⟨rfl, rfl, rfl⟩
  · intro cfg st j
    constructor
    · intro h
      by_cases h1 : createFieldsTooShort cfg j = true
      · rw [createUser, if_pos h1] at h
        simp at h
      rw [Bool.not_eq_true] at h1
      by_cases h2 : checkAllowedDomains cfg j = true
      · by_cases h3 : duplicateExists st j = true
        · exact ⟨h1, h2, h3⟩
        · rw [Bool.not_eq_true] at h3
          rw [createUser, if_neg (by simp [h1]), if_neg (by simp [h2]),
            if_neg (by simp [h3])] at h
          simp at h
      · rw [Bool.not_eq_true] at h2
        rw [createUser, if_neg (by simp [h1]), if_pos (by simp [h2])] at h
        simp at h
    · rintro ⟨h1, h2, h3⟩
      rw [createUser, if_neg (by simp [h1]), if_neg (by simp [h2]),
        if_pos (show duplicateExists st j = true from h3)]
  · exact ⟨Config.mk true [],
      UserCreateJSON.mk (gs "zzz") (gs " Bob B ") (gs "bob@xx.yy ") [],
      UserStore.mk [StoredUser.mk (gs "bob") (gs "Bob B") (gs "bob@xx.yy") false false false],
      StoredUser.mk (gs "bob") (gs "Bob B") (gs "bob@xx.yy") false false false,
      by decide, by decide, by decide, by decide⟩

/-- Witness for C8: under the username-from-email policy, the request
(username `zzz`, fullname `" Bob B "`, email `"bob@xx.yy "`) persists
username `bob`, fullname `Bob B`, email `bob@xx.yy` — each differing from
the raw value the probes consult. -/
theorem create_probes_raw_persists_computed_witness :
    (StoredUser.mk (gs "bob") (gs "Bob B") (gs "bob@xx.yy") false false false).username
      = computeUsername (Config.mk true [])
          (UserCreateJSON.mk (gs "zzz") (gs " Bob B ") (gs "bob@xx.yy ") [])
    ∧ (StoredUser.mk (gs "bob") (gs "Bob B") (gs "bob@xx.yy") false false false).fullname
      = trimSpace (gs " Bob B ")
    ∧ (StoredUser.mk (gs "bob") (gs "Bob B") (gs "bob@xx.yy") false false false).email
      = trimSpace (gs "bob@xx.yy ") :=
  create_probes_raw_persists_computed.1 (Config.mk true []) (UserStore.mk [])
    (UserCreateJSON.mk (gs "zzz") (gs " Bob B ") (gs "bob@xx.yy ") [])
    (UserStore.mk [StoredUser.mk (gs "bob") (gs "Bob B") (gs "bob@xx.yy") false false false])
    (StoredUser.mk (gs "bob") (gs "Bob B") (gs "bob@xx.yy") false false false)
    (by decide)

theorem checkTopicsStep_snd (fix : Bool) (u : GoStr) (ts : List GoStr) (sn : GoStr) :
    (checkTopicsStep fix u ts sn).2 = ts
    ∨ (checkTopicsStep fix u ts sn).2 = ts ++ [privateTopicName u sn] := by
  simp only [checkTopicsStep]
  split
  · left; rfl
  · split
    · right; rfl
    · left; rfl

theorem mem_checkTopicsStep_snd {x : GoStr} {ts : List GoStr} (fix : Bool) (u sn : GoStr)
    (hx : x ∈ ts) : x ∈ (checkTopicsStep fix u ts sn).2 := by
  rcases checkTopicsStep_snd fix u ts sn with h | h <;> rw [h]
  · exact hx
  · exact List.mem_append_left _ hx

theorem name_mem_checkTopicsStep_snd (u sn : GoStr) (ts : List GoStr) :
    privateTopicName u sn ∈ (checkTopicsStep true u ts sn).2 := by
  simp only [checkTopicsStep]
  split
  · next h => simpa using h
  · simp

theorem mem_checkTopicsGo_snd (fix : Bool) (u x : GoStr) (l : List GoStr) :
    ∀ ts, x ∈ ts → x ∈ (checkTopicsGo fix u ts l).2 := by
  induction l with
  | nil => intro ts hx; exact hx
  | cons sn rest ih =>
    intro ts hx
    exact ih _ (mem_checkTopicsStep_snd fix u sn hx)

theorem names_mem_checkTopicsGo (u : GoStr) (l : List GoStr) :
    ∀ ts, ∀ sn ∈ l, privateTopicName u sn ∈ (checkTopicsGo true u ts l).2 := by
  induction l with
  | nil => intro ts sn h; exact absurd h (List.not_mem_nil sn)
  | cons a rest ih =>
    intro ts sn h
    rcases List.mem_cons.mp h with h | h
    · subst h
      exact mem_checkTopicsGo_snd true u _ rest _ (name_mem_checkTopicsStep_snd u sn ts)
    · exact ih _ sn h

theorem checkTopicsGo_all_present (fix : Bool) (u : GoStr) (l : List GoStr) :
    ∀ ts, (∀ sn ∈ l, privateTopicName u sn ∈ ts) →
      checkTopicsGo fix u ts l
        = (l.map fun sn => TopicRecord.ok (privateTopicName u sn), ts) := by
  induction l with
  | nil => intro ts _; rfl
  | cons a rest ih =>
    intro ts h
    have ha : privateTopicName u a ∈ ts := h a (List.mem_cons_self a rest)
    have hstep : checkTopicsStep fix u ts a
        = ([TopicRecord.ok (privateTopicName u a)], ts) := by
      simp only [checkTopicsStep]
      rw [if_pos (by simpa using ha)]
    simp only [checkTopicsGo, hstep, ih ts (fun sn hsn => h sn (List.mem_cons_of_mem a hsn))]
    simp

theorem privateTopicName_length (u sn : GoStr) :
    (privateTopicName u sn).length
      = if sn = [] then 9 + u.length else 10 + u.length + sn.length := by
  have h9 : (gs "/Private/").length = 9 := by decide
  simp only [privateTopicName]
  split
  · simp [List.length_append, h9]
  · simp [List.length_append, h9]
    omega

theorem privateTopicName_ne (u : GoStr) {a b : GoStr}
    (h : ¬ (privateTopicName u a).length = (privateTopicName u b).length) :
    privateTopicName u a ≠ privateTopicName u b :=
  fun he => h (congrArg List.length he)

theorem privateTopicName_ne_nil_case (u : GoStr) (a : GoStr) (ha : ¬ a = []) :
    privateTopicName u a ≠ privateTopicName u [] := by
  apply privateTopicName_ne
  rw [privateTopicName_length, privateTopicName_length, if_neg ha, if_pos rfl]
  omega

theorem privateTopicName_ne_of_length (u : GoStr) (a b : GoStr)
    (ha : ¬ a = []) (hb : ¬ b = []) (hab : a.length ≠ b.length) :
    privateTopicName u a ≠ privateTopicName u b := by
  apply privateTopicName_ne
  rw [privateTopicName_length, privateTopicName_length, if_neg ha, if_neg hb]
  omega

theorem checkTopics_fst_characterization (fix : Bool) (u : GoStr) (ts : List GoStr) :
    (checkTopics fix u ts).1
      = (topicShortNames.map fun sn =>
          if privateTopicName u sn ∈ ts then [TopicRecord.ok (privateTopicName u sn)]
          else if fix then [TopicRecord.ko (privateTopicName u sn),
                            TopicRecord.created (privateTopicName u sn)]
          else [TopicRecord.ko (privateTopicName u sn)]).flatten := by
  have hne21 : privateTopicName u (gs "Tasks") ≠ privateTopicName u [] :=
    privateTopicName_ne_nil_case u (gs "Tasks") (by decide)
  have hne31 : privateTopicName u (gs "Bookmarks") ≠ privateTopicName u [] :=
    privateTopicName_ne_nil_case u (gs "Bookmarks") (by decide)
  have hne41 : privateTopicName u (gs "Notifications") ≠ privateTopicName u [] :=
    privateTopicName_ne_nil_case u (gs "Notifications") (by decide)
  have hne32 : privateTopicName u (gs "Bookmarks") ≠ privateTopicName u (gs "Tasks") :=
    privateTopicName_ne_of_length u _ _ (by decide) (by decide) (by decide)
  have hne42 : privateTopicName u (gs "Notifications") ≠ privateTopicName u (gs "Tasks") :=
    privateTopicName_ne_of_length u _ _ (by decide) (by decide) (by decide)
  have hne43 : privateTopicName u (gs "Notifications") ≠ privateTopicName u (gs "Bookmarks") :=
    privateTopicName_ne_of_length u _ _ (by decide) (by decide) (by decide)
  by_cases h1 : privateTopicName u [] ∈ ts <;>
    by_cases h2 : privateTopicName u (gs "Tasks") ∈ ts <;>
    by_cases h3 : privateTopicName u (gs "Bookmarks") ∈ ts <;>
    by_cases h4 : privateTopicName u (gs "Notifications") ∈ ts <;>
    cases fix <;>
    simp [checkTopics, checkTopicsGo, checkTopicsStep, topicShortNames,
      h1, h2, h3, h4, hne21, hne31, hne41, hne32, hne42, hne43, List.mem_append]

/-- Claim C5 (amended: when a topic is missing and `fixPrivateTopics` is
set, the pass records the `KO : not exist` entry and then the `created`
entry, not the `created` entry alone): the Check topic pass visits the
four canonical suffixes in source order, records `OK` for an existing
topic, `KO` plus `created` for a missing topic when fixing, and `KO`
alone when not fixing; a second run with fixing on after a fixing run
reports all four topics `OK` and leaves the topic store unchanged (no
duplicate creation). -/
theorem checkTopics_records_and_idempotent (fix : Bool) (u : GoStr) (ts : List GoStr) :
    (checkTopics fix u ts).1
      = (topicShortNames.map fun sn =>
          if privateTopicName u sn ∈ ts then [TopicRecord.ok (privateTopicName u sn)]
          else if fix then [TopicRecord.ko (privateTopicName u sn),
                            TopicRecord.created (privateTopicName u sn)]
          else [TopicRecord.ko (privateTopicName u sn)]).flatten
    ∧ checkTopics true u (checkTopics true u ts).2
        = (topicShortNames.map fun sn => TopicRecord.ok (privateTopicName u sn),
           (checkTopics true u ts).2) :=
  ⟨checkTopics_fst_characterization fix u ts,
   checkTopicsGo_all_present true u topicShortNames _
     (fun sn hsn => names_mem_checkTopicsGo u topicShortNames ts sn hsn)⟩

/-- Counterexample to C5 as stated: `Check("carol", fixPrivateTopics=true)`
on an empty topic store records a `KO : not exist` entry (for every
missing topic) alongside the `created` entries, so the records are not
the `created` entries alone claimed for the missing-and-fixing case. -/
theorem checkTopics_ko_when_fixing_cex :
    TopicRecord.ko (privateTopicName (gs "carol") []) ∈ (checkTopics true (gs "carol") []).1
    ∧ (checkTopics true (gs "carol") []).1
      ≠ topicShortNames.map fun sn => TopicRecord.created (privateTopicName (gs "carol") sn) :=
  ⟨by decide, by decide⟩
